import Mathlib

/-!
# Verification of the Gmail IMAP IDLE watcher

Shallow embedding of the mailbox-watcher core of this repository
(`gmail_mqtt_bridge.py`, with `gmail_imap_service.py` as a near-duplicate
variant).  Pure logic (IDLE-response parsing, backoff arithmetic) is
embedded as Lean functions; the stateful detection cycle is embedded as
explicit state passing producing a trace of observable events
(`alert_email` emissions, dedup-set insertions, mark-read attempts,
reconnect scheduling).  Interaction with the IMAP server is parameterised
by an environment supplying the outcome of each server call.
-/

namespace GmailWatcher

/-! ## IDLE notification parsing (`_parse_exists_from_idle`)

`imapclient.idle_check` returns a list of response items; an item is
either a tuple (modelled as a list of atoms) or some other value.  An
atom in a tuple is either an integer or a byte-string token such as
`b'EXISTS'` / `b'RECENT'`. -/

/-- An element of an IDLE response tuple: an integer or a byte-string
token. -/
inductive IdleAtom where
  | num (n : Nat)
  | tok (s : String)
deriving DecidableEq, Repr

/-- One item of an IDLE response batch: a tuple of atoms, or a non-tuple
value (which `_parse_exists_from_idle` ignores). -/
inductive IdleResponse where
  | tup (elems : List IdleAtom)
  | nontuple
deriving DecidableEq, Repr

/-- One iteration of the scan in `_parse_exists_from_idle`: a tuple with
at least two elements whose second element equals `b'EXISTS'` overwrites
the accumulator with `int(response[0])`; `int` applied to a non-numeric
atom raises, which the surrounding `try` turns into a `None` result
(modelled as `Except.error`). -/
def parseExistsStep (acc : Option Nat) : IdleResponse → Except Unit (Option Nat)
  | .tup (e0 :: e1 :: _) =>
      if e1 = IdleAtom.tok "EXISTS" then
        match e0 with
        | .num n => .ok (some n)
        | .tok _ => .error ()
      else .ok acc
  | .tup [] => .ok acc
  | .tup [_] => .ok acc
  | .nontuple => .ok acc

/-- The scan loop of `_parse_exists_from_idle`, threading the last seen
EXISTS count. -/
def parseExistsLoop : Option Nat → List IdleResponse → Except Unit (Option Nat)
  | acc, [] => .ok acc
  | acc, r :: rs =>
      match parseExistsStep acc r with
      | .ok acc2 => parseExistsLoop acc2 rs
      | .error e => .error e

/-- Embeds `_parse_exists_from_idle(responses)`: returns the count of the last
`(count, b'EXISTS')` tuple in arrival order, `None` when no such tuple is
present; any exception during the scan is caught and yields `None`. -/
def parse_exists_from_idle (responses : List IdleResponse) : Option Nat :=
  match parseExistsLoop none responses with
  | .ok v => v
  | .error _ => none

/-- Spec-side view of a single response item: the count carried by an
entry of shape `(count, EXISTS, ...)`, if the item has that shape. -/
def existsEntryCount : IdleResponse → Option Nat
  | .tup (IdleAtom.num n :: IdleAtom.tok "EXISTS" :: _) => some n
  | _ => none

/-- A response item is well-formed when, if it is a tuple whose second
element is the `EXISTS` token, its first element is numeric (so that the
Python `int()` conversion succeeds). -/
def WellFormedResponse : IdleResponse → Prop
  | .tup (e0 :: e1 :: _) => e1 = IdleAtom.tok "EXISTS" → ∃ n, e0 = IdleAtom.num n
  | _ => True

instance (e0 : IdleAtom) : Decidable (∃ n, e0 = IdleAtom.num n) :=
  match e0 with
  | .num n => isTrue ⟨n, rfl⟩
  | .tok _ => isFalse (by rintro ⟨n, h⟩; cases h)

instance : DecidablePred WellFormedResponse := fun r =>
  match r with
  | .tup (e0 :: e1 :: _) =>
      inferInstanceAs (Decidable (e1 = IdleAtom.tok "EXISTS" → ∃ n, e0 = IdleAtom.num n))
  | .tup [] => isTrue trivial
  | .tup [_] => isTrue trivial
  | .nontuple => isTrue trivial

/-! ## Reconnect backoff (`_schedule_reconnect` delay computation)

`self.reconnect_delay = config['reconnect_delay'] / 1000` (milliseconds
to seconds) and
`delay = self.reconnect_delay * (self.reconnect_backoff_multiplier ** (self.reconnect_attempts - 1))`.
Attempt numbers start at 1 (the counter is incremented before the delay
is computed). -/

/-- Reconnect delay in seconds for a given attempt number, with the base
delay given in milliseconds as in the configuration surface. -/
def reconnectDelaySeconds (baseDelayMs mult : ℚ) (attempt : ℕ) : ℚ :=
  (baseDelayMs / 1000) * mult ^ (attempt - 1)

/-! ## Detection-cycle state and observable events

The mutable watcher fields touched by the detection cycle
(`ImapIdleService.__init__` and `_open_inbox_and_start_idle`). -/

/-- Watcher state relevant to the detection cycle. -/
structure WatcherState where
  is_connected : Bool
  processed_uids : List Nat
  last_exists_count : Nat
  startup_exists_count : Nat
  startup_max_uid : Nat
  last_processed_uid : Nat
deriving DecidableEq, Repr

/-- Observable events produced by a detection cycle: `emit` calls and the
per-message IMAP commands/log lines of `_process_message`. -/
inductive Event where
  | processMessage (uid : Nat)
  | alert_email (uid : Nat)
  | processedAdded (uid : Nat)
  | markSeen (uid : Nat)
  | markSeenFailed (uid : Nat)
  | filteredOut (uid : Nat)
  | noData (uid : Nat)
  | fetchFailed (uid : Nat)
deriving DecidableEq, Repr

/-- Outcome of `imap.fetch([uid], ['ENVELOPE', 'RFC822'])` followed by
parsing, filtering and mark-read, for one UID: the fetch call raises, or
returns no data for the UID, or yields a message together with the value
of the alert-relevance predicate and whether `add_flags` succeeds. -/
inductive FetchOutcome where
  | fail
  | empty
  | msg (relevant : Bool) (markReadOk : Bool)
deriving DecidableEq, Repr

/-- Environment for the per-message processing steps of one detection
cycle. -/
structure Env where
  fetch : Nat → FetchOutcome

/-- Embeds `_process_message(uid)`: fetch the message; on missing data return;
otherwise parse, filter, and if the alert-relevance predicate accepts,
emit `alert_email`, insert the UID into `processed_uids`, and attempt
`add_flags([uid], ['\Seen'])`, whose failure is caught and logged.  Any
exception in the body is caught by the enclosing `try`. -/
def processMessage (env : Env) (st : WatcherState) (uid : Nat) :
    WatcherState × List Event :=
  match env.fetch uid with
  | .fail => (st, [.processMessage uid, .fetchFailed uid])
  | .empty => (st, [.processMessage uid, .noData uid])
  | .msg relevant markReadOk =>
      if relevant then
        ({ st with processed_uids := uid :: st.processed_uids },
         [.processMessage uid, .alert_email uid, .processedAdded uid,
          if markReadOk then .markSeen uid else .markSeenFailed uid])
      else
        (st, [.processMessage uid, .filteredOut uid])

/-- Embeds `if uid > self.last_processed_uid: self.last_processed_uid = uid`,
executed for every UID visited by a processing loop, processed or
skipped. -/
def bumpLpu (st : WatcherState) (uid : Nat) : WatcherState :=
  { st with last_processed_uid := max st.last_processed_uid uid }

/-- The shared processing loop of `_process_new_messages_by_exists` and
`_process_new_messages_by_uid`: for each UID, skip it when it is already
in `processed_uids`, otherwise run `_process_message`; in both branches
raise `last_processed_uid` to the UID when larger. -/
def processUidsLoop (env : Env) : WatcherState → List Nat → WatcherState × List Event
  | st, [] => (st, [])
  | st, uid :: rest =>
      if uid ∈ st.processed_uids then
        processUidsLoop env (bumpLpu st uid) rest
      else
        let pm := processMessage env st uid
        let r := processUidsLoop env (bumpLpu pm.1 uid) rest
        (r.1, pm.2 ++ r.2)

/-- Environment for one whole detection cycle: the per-message fetch
outcomes, the result of the sequence-to-UID mapping fetch
(`imap.fetch(seqno_range, ['UID'])`, which may raise; each returned entry
may or may not carry a `b'UID'` key), and the result of the fallback UID
search (`imap.search(['UID', f'{startup_max_uid+1}:*'])`, which may
raise or return `None`). -/
structure CycleEnv where
  fetchEnv : Env
  uidMapping : Except Unit (List (Option Nat))
  searchResult : Except Unit (Option (List Nat))

/-- Embeds `_process_new_messages_by_uid()` (fallback strategy A): search for
UIDs above the startup baseline; bail out on a search failure, a `None`
result, an empty result, or when no returned UID exceeds
`startup_max_uid`; otherwise run the processing loop over the
post-startup UIDs.  `last_exists_count` is never touched here. -/
def process_new_messages_by_uid (cenv : CycleEnv) (st : WatcherState) :
    WatcherState × List Event :=
  if ¬st.is_connected then (st, [])
  else
    match cenv.searchResult with
    | .error _ => (st, [])
    | .ok none => (st, [])
    | .ok (some uids) =>
        if uids.isEmpty then (st, [])
        else if (uids.filter (fun u => st.startup_max_uid < u)).isEmpty then (st, [])
        else processUidsLoop cenv.fetchEnv st
          (uids.filter (fun u => st.startup_max_uid < u))

/-- The search criterion built by `_process_new_messages_by_uid`:
`['UID', f'{self.startup_max_uid + 1}:*']`, i.e. the lower bound of the
fallback query. -/
def uidSearchLowerBound (st : WatcherState) : Nat :=
  st.startup_max_uid + 1

/-- Embeds `_process_new_messages_by_exists(new_exists_count)`: return when not
connected, when the count did not increase, or (updating the snapshot)
when the count is within the startup baseline; otherwise fetch the
sequence-to-UID mapping for `[last+1, new]`.  A mapping failure or an
empty UID extraction falls back to `_process_new_messages_by_uid` and
returns without advancing `last_exists_count`; a successful extraction
runs the processing loop and then advances `last_exists_count`. -/
def process_new_messages_by_exists (cenv : CycleEnv) (st : WatcherState)
    (newExistsCount : Nat) : WatcherState × List Event :=
  if ¬st.is_connected then (st, [])
  else if newExistsCount ≤ st.last_exists_count then (st, [])
  else if newExistsCount ≤ st.startup_exists_count then
    ({ st with last_exists_count := newExistsCount }, [])
  else
    match cenv.uidMapping with
    | .error _ => process_new_messages_by_uid cenv st
    | .ok entries =>
        if (entries.filterMap id).isEmpty then process_new_messages_by_uid cenv st
        else
          ({ (processUidsLoop cenv.fetchEnv st (entries.filterMap id)).1 with
              last_exists_count := newExistsCount },
           (processUidsLoop cenv.fetchEnv st (entries.filterMap id)).2)

/-- The wake handling of the IDLE worker loop in `_start_idle`: parse the
EXISTS count from the notification batch; skip when absent or zero
(Python truthiness) or not above `last_exists_count`; when above the
snapshot but within the startup baseline, update the snapshot and
`continue` without processing; otherwise end IDLE and run
`_process_new_messages_by_exists`. -/
def handleWake (cenv : CycleEnv) (st : WatcherState)
    (responses : List IdleResponse) : WatcherState × List Event :=
  match parse_exists_from_idle responses with
  | none => (st, [])
  | some n =>
      if n = 0 then (st, [])
      else if st.last_exists_count < n then
        if st.startup_exists_count < n then
          process_new_messages_by_exists cenv st n
        else
          ({ st with last_exists_count := n }, [])
      else (st, [])

/-- A whole watcher run, as far as `alert_email` emission is concerned: a
sequence of wake events, each with its own server environment and
notification batch, processed by the IDLE worker. -/
def runWakes : WatcherState → List (CycleEnv × List IdleResponse) →
    WatcherState × List Event
  | st, [] => (st, [])
  | st, (cenv, responses) :: rest =>
      let r1 := handleWake cenv st responses
      let r2 := runWakes r1.1 rest
      (r2.1, r1.2 ++ r2.2)

/-- The UIDs of the `alert_email` events in a trace, in emission order. -/
def alertUids (evs : List Event) : List Nat :=
  evs.filterMap fun e =>
    match e with
    | .alert_email u => some u
    | _ => none

/-- The UIDs for which `_process_message` was invoked in a trace. -/
def processedCalls (evs : List Event) : List Nat :=
  evs.filterMap fun e =>
    match e with
    | .processMessage u => some u
    | _ => none

/-! ## Reconnect scheduling (`_schedule_reconnect`) -/

/-- Watcher fields consulted and mutated by `_schedule_reconnect`. -/
structure ReconnectState where
  should_stop : Bool
  reconnect_attempts : Nat
  max_reconnect_attempts : Nat
deriving DecidableEq, Repr

/-- Lifecycle-level observable events: the `emit` calls of
`_schedule_reconnect` and `stop`, and the starting of a reconnect timer
for a given attempt number. -/
inductive LifeEvent where
  | max_reconnects_reached
  | stopped
  | reconnectScheduled (attempt : Nat)
deriving DecidableEq, Repr

/-- Embeds `_schedule_reconnect()`: when `should_stop` is set or the attempt
counter has reached `max_reconnect_attempts`, emit
`max_reconnects_reached` in the latter case and return without starting
a timer; otherwise increment the counter, compute the backoff delay for
the new attempt number, and start the reconnect timer. -/
def schedule_reconnect (st : ReconnectState) : ReconnectState × List LifeEvent :=
  if st.should_stop ∨ st.max_reconnect_attempts ≤ st.reconnect_attempts then
    if st.max_reconnect_attempts ≤ st.reconnect_attempts then
      (st, [.max_reconnects_reached])
    else (st, [])
  else
    let a := st.reconnect_attempts + 1
    ({ st with reconnect_attempts := a }, [.reconnectScheduled a])

/-! ## `stop()` -/

/-- Watcher fields consulted and mutated by `stop`. -/
structure StopState where
  should_stop : Bool
  is_idling : Bool
  is_connected : Bool
  imap_present : Bool
deriving DecidableEq, Repr

/-- IMAP commands issued and events emitted by `stop`. -/
inductive StopAction where
  | idle_done
  | logout
  | emit_stopped
deriving DecidableEq, Repr

/-- Embeds `stop()`: set `should_stop`, set `is_idling` to `False`, then — if an
IMAP client is present — issue `idle_done` only when `is_idling` still
holds, issue `logout`, drop the client; finally clear `is_connected` and
emit `stopped`. -/
def stop (st : StopState) : StopState × List StopAction :=
  let st1 := { st with should_stop := true, is_idling := false }
  let step :=
    if st1.imap_present then
      (({ st1 with imap_present := false } : StopState),
       (if st1.is_idling then [StopAction.idle_done] else []) ++ [StopAction.logout])
    else (st1, ([] : List StopAction))
  ({ step.1 with is_connected := false }, step.2 ++ [StopAction.emit_stopped])

/-! ## EventEmitter (`on` / `emit`) -/

/-- A registered listener: an identity plus its behaviour on a payload —
either it returns normally or it raises an exception carrying a message. -/
structure Handler (π : Type) where
  id : Nat
  run : π → Except String Unit

/-- The `_listeners` dict, as an association list from event name to the
handler list in registration order. -/
def Listeners (π : Type) := List (String × List (Handler π))

/-- Embeds `on(event, callback)`: append the callback to the event's handler
list, creating the list when the event is not yet registered. -/
def onEvent {π : Type} (ls : Listeners π) (event : String) (h : Handler π) :
    Listeners π :=
  match ls with
  | [] => [(event, [h])]
  | (e, hs) :: rest =>
      if e = event then (e, hs ++ [h]) :: rest
      else (e, hs) :: onEvent rest event h

/-- Dict lookup `self._listeners[event]` guarded by
`if event in self._listeners` (absent event means no handlers run). -/
def getListeners {π : Type} (ls : Listeners π) (event : String) :
    List (Handler π) :=
  match ls.find? (fun q => q.1 == event) with
  | some q => q.2
  | none => []

/-- The observable outcome of invoking one handler inside `emit`'s
`try`/`except`: the handler's identity, paired with the logged error
message when it raised. -/
def invokeHandler {π : Type} (p : π) (h : Handler π) : Nat × Option String :=
  match h.run p with
  | .ok _ => (h.id, none)
  | .error e => (h.id, some e)

/-- Embeds `emit(event, *args)`: invoke every registered handler for the event
synchronously, in order, catching and logging each handler exception.
The result is the invocation trace; `emit` is total, so it never raises
itself. -/
def emit {π : Type} (ls : Listeners π) (event : String) (p : π) :
    List (Nat × Option String) :=
  (getListeners ls event).map (invokeHandler p)

/-! ## Concrete demonstration inputs -/

/-- The wake batch `[(1290, b'EXISTS'), (1291, b'EXISTS')]`. -/
def demoBatch : List IdleResponse :=
  [.tup [.num 1290, .tok "EXISTS"], .tup [.num 1291, .tok "EXISTS"]]

/-- The wake batch `[(5, b'RECENT')]`. -/
def demoRecentBatch : List IdleResponse :=
  [.tup [.num 5, .tok "RECENT"]]

/-- A wake batch with EXISTS counts out of order, `[(1291, b'EXISTS'),
(1290, b'EXISTS')]`: the last entry, not the maximum, must win. -/
def demoOutOfOrderBatch : List IdleResponse :=
  [.tup [.num 1291, .tok "EXISTS"], .tup [.num 1290, .tok "EXISTS"]]

end GmailWatcher

namespace GmailWatcher

/-! ## Supporting lemmas -/

lemma alertUids_append (a b : List Event) :
    alertUids (a ++ b) = alertUids a ++ alertUids b := by
  simp [alertUids]

lemma processedCalls_append (a b : List Event) :
    processedCalls (a ++ b) = processedCalls a ++ processedCalls b := by
  simp [processedCalls]

lemma bumpLpu_processed (st : WatcherState) (uid : Nat) :
    (bumpLpu st uid).processed_uids = st.processed_uids := rfl

lemma existsEntryCount_none (e0 e1 : IdleAtom) (rest : List IdleAtom)
    (he : e1 ≠ IdleAtom.tok "EXISTS") :
    existsEntryCount (.tup (e0 :: e1 :: rest)) = none := by
  unfold existsEntryCount
  split
  · rename_i heq
    simp only [IdleResponse.tup.injEq, List.cons.injEq] at heq
    exact absurd heq.2.1 he
  · rfl

/-- Lemma: `parseExistsLoop` over well-formed responses reproduces, starting
from any accumulator, the last count found by the spec-side scan. -/
lemma parseExistsLoop_wf (rs : List IdleResponse) :
    ∀ acc : Option Nat, (∀ r ∈ rs, WellFormedResponse r) →
      parseExistsLoop acc rs =
        .ok ((rs.filterMap existsEntryCount).foldl (fun _ n => some n) acc) := by
  induction rs with
  | nil => intro acc _; rfl
  | cons r rs ih =>
      intro acc hwf
      have hr : WellFormedResponse r := hwf r (by simp)
      have hrs : ∀ q ∈ rs, WellFormedResponse q := fun q hq => hwf q (by simp [hq])
      match r with
      | .nontuple =>
          simpa [parseExistsLoop, parseExistsStep, existsEntryCount] using ih acc hrs
      | .tup [] =>
          simpa [parseExistsLoop, parseExistsStep, existsEntryCount] using ih acc hrs
      | .tup [e] =>
          simpa [parseExistsLoop, parseExistsStep, existsEntryCount] using ih acc hrs
      | .tup (e0 :: e1 :: rest) =>
          by_cases he : e1 = IdleAtom.tok "EXISTS"
          · obtain ⟨n, hn⟩ := hr he
            subst hn; subst he
            simpa [parseExistsLoop, parseExistsStep, existsEntryCount]
              using ih (some n) hrs
          · simp only [parseExistsLoop, parseExistsStep, if_neg he, List.filterMap_cons,
              existsEntryCount_none e0 e1 rest he]
            exact ih acc hrs

lemma foldl_last_option (l : List Nat) :
    ∀ acc : Option Nat, l.foldl (fun _ n => some n) acc = l.getLast?.or acc := by
  induction l with
  | nil => intro acc; simp
  | cons n l ih =>
      intro acc
      cases l with
      | nil => simp [List.foldl]
      | cons m l' =>
          rw [List.foldl_cons, ih (some n), List.getLast?_cons_cons]
          have : (m :: l').getLast? ≠ none := by
            simp [List.getLast?_eq_none_iff]
          cases h : (m :: l').getLast? with
          | none => exact absurd h this
          | some k => simp [Option.or]

end GmailWatcher

namespace GmailWatcher

/-! ## Claim C5: wake-batch extraction returns the last EXISTS count -/

/-- C5: for every wake-notification batch whose `(…, EXISTS)` tuples are
well-formed (numeric first element, so the `int()` conversion cannot
raise), `_parse_exists_from_idle` returns the count of the **last** entry
of shape `(count, EXISTS)` in arrival order — not the maximum — and
returns `none` when the batch is empty or contains no EXISTS entry
(`getLast?` of an empty scan is `none`), in which case the wake is a
no-op. -/
theorem exists_extraction_returns_last_entry
    (responses : List IdleResponse)
    (hwf : ∀ r ∈ responses, WellFormedResponse r) :
    parse_exists_from_idle responses =
      (responses.filterMap existsEntryCount).getLast? := by
  unfold parse_exists_from_idle
  rw [parseExistsLoop_wf responses none hwf, foldl_last_option]
  cases (responses.filterMap existsEntryCount).getLast? <;> rfl

/-- Witness for C5: `[(1290, EXISTS), (1291, EXISTS)] → 1291`,
`[(5, RECENT)] → none`, `[] → none`, and the out-of-order batch
`[(1291, EXISTS), (1290, EXISTS)]` yields `1290` (the last entry, not the
maximum). -/
theorem exists_extraction_returns_last_entry_witness :
    parse_exists_from_idle demoBatch = some 1291 ∧
    parse_exists_from_idle demoRecentBatch = none ∧
    parse_exists_from_idle [] = none ∧
    parse_exists_from_idle demoOutOfOrderBatch = some 1290 :=
  ⟨(exists_extraction_returns_last_entry demoBatch (by decide)).trans (by decide),
   (exists_extraction_returns_last_entry demoRecentBatch (by decide)).trans (by decide),
   (exists_extraction_returns_last_entry [] (by decide)).trans (by decide),
   (exists_extraction_returns_last_entry demoOutOfOrderBatch (by decide)).trans (by decide)⟩

/-! ## Claim C6: geometric reconnect backoff -/

/-- C6: for every attempt number `n ≥ 1` the reconnect delay equals
`baseDelay × backoffMultiplier^(n−1)` by definition of the embedded
computation; `delay(1)` equals the base delay (the configured
milliseconds divided by 1000, as `_schedule_reconnect` works in
seconds), the delay is strictly increasing in the attempt number
whenever the multiplier exceeds 1 (and the base delay is positive), and
with the defaults `baseDelay = 5000 ms`, `multiplier = 1.5` the first
three delays are 5000, 7500 and 11250 ms. -/
theorem reconnect_delay_geometric (base mult : ℚ)
    (hb : 0 < base) (hm : 1 < mult) :
    reconnectDelaySeconds base mult 1 = base / 1000 ∧
    (∀ n : ℕ, 1 ≤ n →
      reconnectDelaySeconds base mult n < reconnectDelaySeconds base mult (n + 1)) ∧
    1000 * reconnectDelaySeconds 5000 (3 / 2) 1 = 5000 ∧
    1000 * reconnectDelaySeconds 5000 (3 / 2) 2 = 7500 ∧
    1000 * reconnectDelaySeconds 5000 (3 / 2) 3 = 11250 := by
  refine ⟨by simp [reconnectDelaySeconds], ?_, by norm_num [reconnectDelaySeconds],
    by norm_num [reconnectDelaySeconds], by norm_num [reconnectDelaySeconds]⟩
  intro n hn
  have hb' : (0 : ℚ) < base / 1000 := by positivity
  have hmpos : (0 : ℚ) < mult := lt_trans one_pos hm
  have hpow : (0 : ℚ) < mult ^ (n - 1) := pow_pos hmpos _
  have hstep : reconnectDelaySeconds base mult (n + 1) =
      reconnectDelaySeconds base mult n * mult := by
    unfold reconnectDelaySeconds
    have hsucc : n + 1 - 1 = (n - 1) + 1 := by omega
    rw [hsucc, pow_succ, mul_assoc]
  rw [hstep]
  have hpos : 0 < reconnectDelaySeconds base mult n := by
    unfold reconnectDelaySeconds; positivity
  exact (lt_mul_iff_one_lt_right hpos).mpr hm

/-- Witness for C6: instantiated at the default configuration
(base 5000 ms, multiplier 1.5) and attempt 1. -/
theorem reconnect_delay_geometric_witness :
    reconnectDelaySeconds 5000 (3 / 2) 1 < reconnectDelaySeconds 5000 (3 / 2) 2 :=
  (reconnect_delay_geometric 5000 (3 / 2) (by norm_num) (by norm_num)).2.1 1 le_rfl

/-! ## Claim C7: EventEmitter dispatch -/

lemma invokeHandler_fst {π : Type} (p : π) (h : Handler π) :
    (invokeHandler p h).1 = h.id := by
  unfold invokeHandler
  cases h.run p <;> rfl

/-- C7: `emit` invokes the registered handlers synchronously in
registration order — the invocation trace identifies exactly the
registered handlers, in order, whether or not individual handlers raise
(a raising handler contributes a logged error entry but never suppresses
the handlers after it, and `emit`, being a total function, never raises
itself) — and `on` appends a new handler at the end of the event's
handler list, preserving registration order. -/
theorem emit_invokes_all_handlers_in_order {π : Type}
    (ls : Listeners π) (event : String) (h : Handler π) (p : π) :
    (emit ls event p).map Prod.fst = (getListeners ls event).map Handler.id ∧
    getListeners (onEvent ls event h) event = getListeners ls event ++ [h] := by
  constructor
  · unfold emit
    rw [List.map_map]
    exact List.map_congr_left fun q _ => invokeHandler_fst p q
  · induction ls with
    | nil => simp [onEvent, getListeners, List.find?]
    | cons q rest ih =>
        obtain ⟨e, hs⟩ := q
        by_cases he : e = event
        · subst he
          simp [onEvent, getListeners, List.find?]
        · have hbe : (e == event) = false := by
            simp [he]
          simp only [onEvent, if_neg he]
          simp only [getListeners, List.find?, hbe]
          exact ih

/-! ## Claim C10: the idle-shutdown branch of `stop()` is dead -/

/-- C10: `stop()` sets `is_idling` to `False` unconditionally and only
afterwards tests it, so for every prior state the `idle_done` command is
never issued; when an IMAP client is present `stop` proceeds directly to
`logout` (and then emits `stopped`), even when a wait session was
active. -/
theorem stop_never_issues_idle_done (st : StopState) :
    StopAction.idle_done ∉ (stop st).2 ∧
    (stop st).2 = (if st.imap_present then
      [StopAction.logout, StopAction.emit_stopped] else [StopAction.emit_stopped]) := by
  unfold stop
  cases h : st.imap_present <;> simp [h]

/-! ## Claim C3: behaviour at the reconnect-attempt ceiling -/

/-- Counterexample for C3 as stated: with the attempt counter at the
default ceiling (10 of 10), `_schedule_reconnect` emits
`max_reconnects_reached` and returns; no `stopped` event is emitted and
the state is unchanged (no transition to a Stopped state occurs). -/
theorem max_reconnects_no_stopped_emission :
    schedule_reconnect ⟨false, 10, 10⟩ =
      (⟨false, 10, 10⟩, [LifeEvent.max_reconnects_reached]) ∧
    LifeEvent.stopped ∉ (schedule_reconnect ⟨false, 10, 10⟩).2 := by
  decide

/-- C3 (amended): when the reconnect attempt count has reached the
configured maximum, `_schedule_reconnect` emits `max_reconnects_reached`
exactly once for that invocation, leaves the state unchanged and starts
no reconnect timer (no `reconnectScheduled` event), so no further
connection attempts originate from it; it does **not** emit `stopped`
and performs no transition to a Stopped state (`stopped` is emitted only
by an explicit `stop()` call). -/
theorem max_reconnects_reached_terminal (st : ReconnectState)
    (h : st.max_reconnect_attempts ≤ st.reconnect_attempts) :
    schedule_reconnect st = (st, [LifeEvent.max_reconnects_reached]) := by
  unfold schedule_reconnect
  simp [h]

/-- Witness for the amended C3, at the default ceiling of 10 attempts. -/
theorem max_reconnects_reached_terminal_witness :
    schedule_reconnect ⟨false, 10, 10⟩ =
      (⟨false, 10, 10⟩, [LifeEvent.max_reconnects_reached]) :=
  max_reconnects_reached_terminal ⟨false, 10, 10⟩ (by decide)

/-! ## Claim C9: mark-as-read failure does not impair emission or dedup -/

/-- C9: for a message accepted by the alert-relevance predicate whose
mark-as-read request fails, `_process_message` still emits `alert_email`
and still inserts the identifier into the processed set, both strictly
before the mark-as-read attempt in the trace; the failure is caught (the
function returns normally, producing the logged `markSeenFailed`
entry). -/
theorem mark_read_failure_does_not_block_emission
    (env : Env) (st : WatcherState) (uid : Nat)
    (h : env.fetch uid = .msg true false) :
    processMessage env st uid =
      ({ st with processed_uids := uid :: st.processed_uids },
       [.processMessage uid, .alert_email uid, .processedAdded uid,
        .markSeenFailed uid]) ∧
    uid ∈ (processMessage env st uid).1.processed_uids := by
  unfold processMessage
  rw [h]
  simp

/-- Witness for C9 at a concrete environment in which UID 500 is
relevant and the `add_flags` call fails. -/
theorem mark_read_failure_does_not_block_emission_witness :
    processMessage ⟨fun _ => .msg true false⟩
        ⟨true, [], 1291, 1291, 499, 499⟩ 500 =
      ({ is_connected := true, processed_uids := [500], last_exists_count := 1291,
         startup_exists_count := 1291, startup_max_uid := 499,
         last_processed_uid := 499 },
       [.processMessage 500, .alert_email 500, .processedAdded 500,
        .markSeenFailed 500]) ∧
    500 ∈ (processMessage ⟨fun _ => .msg true false⟩
        ⟨true, [], 1291, 1291, 499, 499⟩ 500).1.processed_uids :=
  mark_read_failure_does_not_block_emission ⟨fun _ => .msg true false⟩
    ⟨true, [], 1291, 1291, 499, 499⟩ 500 rfl

/-! ## Claim C2: growth within the startup baseline is suppressed -/

/-- C2: for every wake event whose extracted count exceeds the exists
snapshot but does not exceed the startup exists count, the IDLE worker
updates `last_exists_count` to the extracted count and performs no
message processing — the event trace is empty, so in particular no
`alert_email` is emitted for such an event. -/
theorem baseline_growth_suppressed (cenv : CycleEnv) (st : WatcherState)
    (responses : List IdleResponse) (n : Nat)
    (hp : parse_exists_from_idle responses = some n)
    (h1 : st.last_exists_count < n) (h2 : n ≤ st.startup_exists_count) :
    handleWake cenv st responses = ({ st with last_exists_count := n }, []) ∧
    alertUids (handleWake cenv st responses).2 = [] := by
  have hn : n ≠ 0 := by omega
  have h2' : ¬ st.startup_exists_count < n := not_lt.mpr h2
  unfold handleWake
  rw [hp]
  simp [hn, h1, h2', alertUids]

/-- Witness for C2: snapshot 1285, startup baseline 1291, wake reporting
1290 — the snapshot advances to 1290 and nothing is processed. -/
theorem baseline_growth_suppressed_witness :
    handleWake ⟨⟨fun _ => .fail⟩, .error (), .error ()⟩
        ⟨true, [], 1285, 1291, 499, 499⟩
        [.tup [.num 1290, .tok "EXISTS"]] =
      ({ is_connected := true, processed_uids := [], last_exists_count := 1290,
         startup_exists_count := 1291, startup_max_uid := 499,
         last_processed_uid := 499 }, []) :=
  (baseline_growth_suppressed ⟨⟨fun _ => .fail⟩, .error (), .error ()⟩
    ⟨true, [], 1285, 1291, 499, 499⟩ [.tup [.num 1290, .tok "EXISTS"]] 1290
    rfl (by decide) (by decide)).1

/-! ## Claim C4: behaviour when every detection strategy fails -/

/-- A server environment in which every call fails: per-message fetch
raises, the sequence-to-UID mapping fetch raises, and the fallback UID
search raises. -/
def cenvAllFail : CycleEnv := ⟨⟨fun _ => .fail⟩, .error (), .error ()⟩

/-- A connected watcher whose snapshot and startup baseline are both 5,
with startup max UID 50 and nothing processed yet. -/
def stBaseline : WatcherState := ⟨true, [], 5, 5, 50, 50⟩

/-- Lemma: `_process_new_messages_by_uid` is a no-op when the fallback search
raises, returns `None`, or returns an empty list. -/
lemma by_uid_noop (cenv : CycleEnv) (st : WatcherState)
    (hfall : cenv.searchResult = .error () ∨ cenv.searchResult = .ok none ∨
      cenv.searchResult = .ok (some [])) :
    process_new_messages_by_uid cenv st = (st, []) := by
  unfold process_new_messages_by_uid
  by_cases hc : st.is_connected
  · rcases hfall with h | h | h <;> simp [hc, h]
  · simp [hc]

/-- Counterexample for C4 as stated: with snapshot 5, startup baseline 5
and a wake reporting 6 messages, the sequence-to-UID mapping fetch
raises and the fallback UID search raises too; the cycle is abandoned,
but `last_exists_count` stays at 5 — it is **not** advanced to the new
exists count 6. -/
theorem snapshot_not_advanced_on_total_failure :
    process_new_messages_by_exists cenvAllFail stBaseline 6 = (stBaseline, []) ∧
    (process_new_messages_by_exists cenvAllFail stBaseline 6).1.last_exists_count = 5 ∧
    ¬ (process_new_messages_by_exists cenvAllFail stBaseline 6).1.last_exists_count = 6 := by
  decide

/-- C4 (amended): for every detection cycle in which the primary
sequence-to-UID resolution fails or yields zero identifiers and the
fallback search also fails (raises, returns `None`, or returns an empty
list), the cycle is abandoned without a fatal error — the call returns
normally with an empty event trace and the state unchanged — but the
exists snapshot `last_exists_count` is **not** advanced to the new
exists count: it keeps its previous value, so the same delta will be
re-detected on the next wake. -/
theorem cycle_abandoned_without_snapshot_advance
    (cenv : CycleEnv) (st : WatcherState) (n : Nat)
    (hc : st.is_connected = true)
    (h1 : st.last_exists_count < n) (h2 : st.startup_exists_count < n)
    (hprim : cenv.uidMapping = .error () ∨
      ∃ entries, cenv.uidMapping = .ok entries ∧ entries.filterMap id = [])
    (hfall : cenv.searchResult = .error () ∨ cenv.searchResult = .ok none ∨
      cenv.searchResult = .ok (some [])) :
    process_new_messages_by_exists cenv st n = (st, []) ∧
    (process_new_messages_by_exists cenv st n).1.last_exists_count =
      st.last_exists_count := by
  have hn1 : ¬ n ≤ st.last_exists_count := not_le.mpr h1
  have hn2 : ¬ n ≤ st.startup_exists_count := not_le.mpr h2
  have hmain : process_new_messages_by_exists cenv st n = (st, []) := by
    unfold process_new_messages_by_exists
    rcases hprim with hm | ⟨entries, hm, hemp⟩
    · simp [hc, hn1, hn2, hm, by_uid_noop cenv st hfall]
    · simp [hc, hn1, hn2, hm, hemp, by_uid_noop cenv st hfall]
  exact ⟨hmain, by rw [hmain]⟩

/-- Witness for the amended C4, at the all-failing environment. -/
theorem cycle_abandoned_without_snapshot_advance_witness :
    process_new_messages_by_exists cenvAllFail stBaseline 6 = (stBaseline, []) ∧
    (process_new_messages_by_exists cenvAllFail stBaseline 6).1.last_exists_count =
      stBaseline.last_exists_count :=
  cycle_abandoned_without_snapshot_advance cenvAllFail stBaseline 6
    rfl (by decide) (by decide) (Or.inl rfl) (Or.inl rfl)

/-! ## Claim C8: fallback strategy A -/

lemma processMessage_state (env : Env) (st : WatcherState) (uid : Nat) :
    (processMessage env st uid).1 = st ∨
    (processMessage env st uid).1 =
      { st with processed_uids := uid :: st.processed_uids } := by
  unfold processMessage
  cases env.fetch uid with
  | fail => exact Or.inl rfl
  | empty => exact Or.inl rfl
  | msg relevant markReadOk =>
      cases relevant
      · exact Or.inl rfl
      · exact Or.inr rfl

lemma processMessage_lpu (env : Env) (st : WatcherState) (uid : Nat) :
    (processMessage env st uid).1.last_processed_uid = st.last_processed_uid := by
  rcases processMessage_state env st uid with h | h <;> rw [h]

lemma processMessage_startup_max (env : Env) (st : WatcherState) (uid : Nat) :
    (processMessage env st uid).1.startup_max_uid = st.startup_max_uid := by
  rcases processMessage_state env st uid with h | h <;> rw [h]

lemma processMessage_calls (env : Env) (st : WatcherState) (uid : Nat) :
    processedCalls (processMessage env st uid).2 = [uid] := by
  unfold processMessage
  cases env.fetch uid with
  | fail => simp [processedCalls]
  | empty => simp [processedCalls]
  | msg relevant markReadOk =>
      cases relevant <;> cases markReadOk <;> simp [processedCalls]

lemma processUidsLoop_lpu (env : Env) (uids : List Nat) :
    ∀ st : WatcherState,
      (processUidsLoop env st uids).1.last_processed_uid =
        uids.foldl max st.last_processed_uid := by
  induction uids with
  | nil => intro st; rfl
  | cons u rest ih =>
      intro st
      by_cases h : u ∈ st.processed_uids
      · simp only [processUidsLoop, if_pos h]
        rw [ih (bumpLpu st u), List.foldl_cons]
        rfl
      · simp only [processUidsLoop, if_neg h]
        rw [ih (bumpLpu (processMessage env st u).1 u), List.foldl_cons]
        simp [bumpLpu, processMessage_lpu]

lemma processUidsLoop_startup_max (env : Env) (uids : List Nat) :
    ∀ st : WatcherState,
      (processUidsLoop env st uids).1.startup_max_uid = st.startup_max_uid := by
  induction uids with
  | nil => intro st; rfl
  | cons u rest ih =>
      intro st
      by_cases h : u ∈ st.processed_uids
      · simp only [processUidsLoop, if_pos h]
        rw [ih (bumpLpu st u)]
        rfl
      · simp only [processUidsLoop, if_neg h]
        rw [ih (bumpLpu (processMessage env st u).1 u)]
        simp [bumpLpu, processMessage_startup_max]

lemma processUidsLoop_calls (env : Env) (uids : List Nat) :
    ∀ st : WatcherState, uids.Nodup →
      processedCalls (processUidsLoop env st uids).2 =
        uids.filter (fun u => decide (u ∉ st.processed_uids)) := by
  induction uids with
  | nil => intro st _; rfl
  | cons u rest ih =>
      intro st hnd
      rw [List.nodup_cons] at hnd
      by_cases h : u ∈ st.processed_uids
      · simp only [processUidsLoop, if_pos h]
        rw [ih (bumpLpu st u) hnd.2, bumpLpu_processed,
          List.filter_cons_of_neg (by simpa using h)]
      · have hfeq : rest.filter
            (fun v => decide (v ∉ (processMessage env st u).1.processed_uids)) =
            rest.filter (fun v => decide (v ∉ st.processed_uids)) := by
          apply List.filter_congr
          intro v hv
          have hvu : v ≠ u := fun hvu => hnd.1 (hvu ▸ hv)
          rcases processMessage_state env st u with hst | hst <;> rw [hst]
          simp [hvu]
        simp only [processUidsLoop, if_neg h]
        rw [processedCalls_append, processMessage_calls,
          ih (bumpLpu (processMessage env st u).1 u) hnd.2, bumpLpu_processed, hfeq,
          List.filter_cons_of_pos (by simpa using h), List.singleton_append]

/-- C8 (amended): whenever fallback strategy A runs off a successful
search, it queries for all identifiers strictly greater than
`startup_max_uid` (the built criterion is `UID startup_max_uid+1:*`),
invokes `_process_message` for exactly those returned identifiers that
exceed `startup_max_uid` and are not already in the processed set, and
raises the running high-water mark `last_processed_uid` to the maximum
identifier seen — processed or skipped.  However, the lower bound of the
fallback query is `startup_max_uid + 1` before **and after** the run:
`last_processed_uid` is never consulted by the query, so subsequent
fallback queries do **not** narrow over time. -/
theorem fallback_uid_strategy (cenv : CycleEnv) (st : WatcherState)
    (uids : List Nat)
    (hc : st.is_connected = true)
    (hs : cenv.searchResult = .ok (some uids)) (hnd : uids.Nodup) :
    processedCalls (process_new_messages_by_uid cenv st).2 =
      uids.filter (fun u =>
        decide (st.startup_max_uid < u) && decide (u ∉ st.processed_uids)) ∧
    (process_new_messages_by_uid cenv st).1.last_processed_uid =
      (uids.filter (fun u => decide (st.startup_max_uid < u))).foldl max
        st.last_processed_uid ∧
    uidSearchLowerBound (process_new_messages_by_uid cenv st).1 =
      st.startup_max_uid + 1 := by
  have hpost : uids.filter (fun u =>
      decide (st.startup_max_uid < u) && decide (u ∉ st.processed_uids)) =
      (uids.filter (fun u => decide (st.startup_max_uid < u))).filter
        (fun u => decide (u ∉ st.processed_uids)) := by
    rw [List.filter_filter]
    apply List.filter_congr
    intro v _
    exact Bool.and_comm _ _
  have hred : process_new_messages_by_uid cenv st =
      if uids.isEmpty then (st, [])
      else if (uids.filter (fun u => st.startup_max_uid < u)).isEmpty then (st, [])
      else processUidsLoop cenv.fetchEnv st
        (uids.filter (fun u => st.startup_max_uid < u)) := by
    unfold process_new_messages_by_uid
    rw [hs, if_neg (not_not_intro hc)]
  rw [hred]
  by_cases hemp : uids.isEmpty
  · rw [if_pos hemp]
    have huids : uids = [] := List.isEmpty_iff.mp hemp
    subst huids
    simp [processedCalls, uidSearchLowerBound]
  · rw [if_neg hemp]
    by_cases hpostemp : (uids.filter (fun u => st.startup_max_uid < u)).isEmpty
    · rw [if_pos hpostemp]
      have hnil : uids.filter (fun u => decide (st.startup_max_uid < u)) = [] :=
        List.isEmpty_iff.mp hpostemp
      refine ⟨?_, by rw [hnil]; rfl, rfl⟩
      rw [hpost, hnil]
      rfl
    · rw [if_neg hpostemp]
      refine ⟨?_, ?_, ?_⟩
      · rw [processUidsLoop_calls _ _ _ (List.Nodup.filter _ hnd), hpost]
      · rw [processUidsLoop_lpu]
      · unfold uidSearchLowerBound
        rw [processUidsLoop_startup_max]

/-- Witness for the amended C8: search returns `[60, 100, 30]` against a
watcher with startup max UID 50 and UID 60 already processed — only 100
is handed to `_process_message`, the high-water mark rises to 100, and
the query lower bound is 51. -/
theorem fallback_uid_strategy_witness :
    processedCalls (process_new_messages_by_uid
        ⟨⟨fun _ => .msg true true⟩, .ok [], .ok (some [60, 100, 30])⟩
        ⟨true, [60], 5, 5, 50, 50⟩).2 =
      [60, 100, 30].filter (fun u =>
        decide ((50 : Nat) < u) && decide (u ∉ ([60] : List Nat))) ∧
    (process_new_messages_by_uid
        ⟨⟨fun _ => .msg true true⟩, .ok [], .ok (some [60, 100, 30])⟩
        ⟨true, [60], 5, 5, 50, 50⟩).1.last_processed_uid =
      ([60, 100, 30].filter (fun u => decide ((50 : Nat) < u))).foldl max 50 ∧
    uidSearchLowerBound (process_new_messages_by_uid
        ⟨⟨fun _ => .msg true true⟩, .ok [], .ok (some [60, 100, 30])⟩
        ⟨true, [60], 5, 5, 50, 50⟩).1 = 51 :=
  fallback_uid_strategy
    ⟨⟨fun _ => .msg true true⟩, .ok [], .ok (some [60, 100, 30])⟩
    ⟨true, [60], 5, 5, 50, 50⟩ [60, 100, 30] rfl rfl (by decide)

/-- A fallback environment whose search returns the single post-startup
UID 100, every message being alert-relevant. -/
def cenvNarrow : CycleEnv := ⟨⟨fun _ => .msg true true⟩, .ok [], .ok (some [100])⟩

/-- Counterexample for C8 as stated: after the fallback run processes
UID 100 and raises the high-water mark to 100, the lower bound of the
next fallback query is still `startup_max_uid + 1 = 51`, not 101 — the
queries do not narrow over time, because `last_processed_uid` is never
consulted when the search criterion is built. -/
theorem fallback_query_does_not_narrow :
    (process_new_messages_by_uid cenvNarrow stBaseline).1.last_processed_uid = 100 ∧
    uidSearchLowerBound (process_new_messages_by_uid cenvNarrow stBaseline).1 = 51 ∧
    uidSearchLowerBound (process_new_messages_by_uid cenvNarrow stBaseline).1 ≠
      (process_new_messages_by_uid cenvNarrow stBaseline).1.last_processed_uid + 1 := by
  decide

/-! ## Claim C1: at-most-once `alert_email` per UID per run

The invariant is carried by `AlertSpec P P' evs`: the `alert_email` UIDs
of the trace `evs` are distinct, the processed set only grows from `P`
to `P'`, and every emitted UID was absent from `P` when its emission
happened and is present in `P'` afterwards.  It composes sequentially,
holds for every building block of the detection cycle, and its first
component at the whole-run level is the dedup invariant. -/

/-- Invariant tying a trace to the processed set before (`P`) and after
(`P'`) the producing step. -/
def AlertSpec (P P' : List Nat) (evs : List Event) : Prop :=
  (alertUids evs).Nodup ∧
  (∀ u ∈ P, u ∈ P') ∧
  (∀ u ∈ alertUids evs, u ∉ P ∧ u ∈ P')

lemma alertSpec_nil (P : List Nat) : AlertSpec P P [] :=
  ⟨by simp [alertUids], fun _ h => h, by simp [alertUids]⟩

lemma alertSpec_comp {P P1 P2 : List Nat} {e1 e2 : List Event}
    (h1 : AlertSpec P P1 e1) (h2 : AlertSpec P1 P2 e2) :
    AlertSpec P P2 (e1 ++ e2) := by
  obtain ⟨n1, m1, a1⟩ := h1
  obtain ⟨n2, m2, a2⟩ := h2
  refine ⟨?_, fun u hu => m2 u (m1 u hu), ?_⟩
  · rw [alertUids_append]
    refine List.Nodup.append n1 n2 ?_
    rw [List.disjoint_left]
    intro v hv1 hv2
    exact (a2 v hv2).1 (a1 v hv1).2
  · intro u hu
    rw [alertUids_append, List.mem_append] at hu
    rcases hu with h | h
    · exact ⟨(a1 u h).1, m2 u (a1 u h).2⟩
    · exact ⟨fun hP => (a2 u h).1 (m1 u hP), (a2 u h).2⟩

lemma processMessage_alertSpec (env : Env) (st : WatcherState) (uid : Nat)
    (h : uid ∉ st.processed_uids) :
    AlertSpec st.processed_uids (processMessage env st uid).1.processed_uids
      (processMessage env st uid).2 := by
  unfold processMessage
  cases env.fetch uid with
  | fail => exact ⟨by simp [alertUids], fun _ h => h, by simp [alertUids]⟩
  | empty => exact ⟨by simp [alertUids], fun _ h => h, by simp [alertUids]⟩
  | msg relevant markReadOk =>
      cases relevant
      · exact ⟨by simp [alertUids], fun _ h => h, by simp [alertUids]⟩
      · cases markReadOk <;>
        · refine ⟨by simp [alertUids], fun v hv => List.mem_cons_of_mem uid hv, ?_⟩
          intro v hv
          simp [alertUids] at hv
          rw [hv]
          exact ⟨h, List.mem_cons_self uid _⟩

lemma processUidsLoop_alertSpec (env : Env) (uids : List Nat) :
    ∀ st : WatcherState,
      AlertSpec st.processed_uids
        (processUidsLoop env st uids).1.processed_uids
        (processUidsLoop env st uids).2 := by
  induction uids with
  | nil => intro st; exact alertSpec_nil _
  | cons u rest ih =>
      intro st
      by_cases h : u ∈ st.processed_uids
      · simp only [processUidsLoop, if_pos h]
        have := ih (bumpLpu st u)
        rw [bumpLpu_processed] at this
        exact this
      · simp only [processUidsLoop, if_neg h]
        have h1 := processMessage_alertSpec env st u h
        have h2 := ih (bumpLpu (processMessage env st u).1 u)
        rw [bumpLpu_processed] at h2
        exact alertSpec_comp h1 h2

lemma by_uid_alertSpec (cenv : CycleEnv) (st : WatcherState) :
    AlertSpec st.processed_uids
      (process_new_messages_by_uid cenv st).1.processed_uids
      (process_new_messages_by_uid cenv st).2 := by
  unfold process_new_messages_by_uid
  split
  · exact alertSpec_nil _
  split
  · exact alertSpec_nil _
  · exact alertSpec_nil _
  split
  · exact alertSpec_nil _
  split
  · exact alertSpec_nil _
  · exact processUidsLoop_alertSpec _ _ _

lemma by_exists_alertSpec (cenv : CycleEnv) (st : WatcherState) (n : Nat) :
    AlertSpec st.processed_uids
      (process_new_messages_by_exists cenv st n).1.processed_uids
      (process_new_messages_by_exists cenv st n).2 := by
  unfold process_new_messages_by_exists
  split
  · exact alertSpec_nil _
  split
  · exact alertSpec_nil _
  split
  · exact alertSpec_nil _
  split
  · exact by_uid_alertSpec _ _
  split
  · exact by_uid_alertSpec _ _
  · exact processUidsLoop_alertSpec _ _ _

lemma handleWake_alertSpec (cenv : CycleEnv) (st : WatcherState)
    (responses : List IdleResponse) :
    AlertSpec st.processed_uids
      (handleWake cenv st responses).1.processed_uids
      (handleWake cenv st responses).2 := by
  unfold handleWake
  split
  · exact alertSpec_nil _
  split
  · exact alertSpec_nil _
  split
  · split
    · exact by_exists_alertSpec _ _ _
    · exact alertSpec_nil _
  · exact alertSpec_nil _

lemma runWakes_alertSpec (wakes : List (CycleEnv × List IdleResponse)) :
    ∀ st : WatcherState,
      AlertSpec st.processed_uids
        (runWakes st wakes).1.processed_uids
        (runWakes st wakes).2 := by
  induction wakes with
  | nil => intro st; exact alertSpec_nil _
  | cons wake rest ih =>
      intro st
      obtain ⟨cenv, responses⟩ := wake
      simp only [runWakes]
      exact alertSpec_comp (handleWake_alertSpec cenv st responses)
        (ih (handleWake cenv st responses).1)

/-- C1: over every watcher run — every sequence of wake notifications,
each with its own server behaviour, starting from any watcher state —
each message UID appears in at most one `alert_email` emission: every
processing path checks `processed_uids` before invoking
`_process_message`, and the UID is inserted into `processed_uids` at the
moment `alert_email` is emitted for it. -/
theorem alert_email_at_most_once_per_run
    (wakes : List (CycleEnv × List IdleResponse)) (st : WatcherState) (uid : Nat) :
    (alertUids (runWakes st wakes).2).count uid ≤ 1 :=
  List.nodup_iff_count_le_one.mp (runWakes_alertSpec wakes st).1 uid

end GmailWatcher
